import Mathlib

/-!
Verification of the cold-outreach backend (Flask + Gemini + SMTP app).

Shallow embedding: Python strings are modelled as `List Char` (`PyStr`),
the pure string-processing functions of `email_filter.py`,
`email_scraper.py` (`clean_domain`), `ai_service.py`, `email_service.py`
and `app.py` are translated into Lean functions.  Effectful calls
(the Gemini API, SMTP delivery, the browser scraper) are modelled by
explicit outcome parameters ("oracles"): a theorem quantified over all
oracle behaviours covers every run of the code.  `time.sleep` and log
`print`s are no-ops and are dropped.
-/

/-- Python `str` modelled as a list of characters. -/
abbrev PyStr := List Char

/-- Whitespace characters removed by Python `str.strip()` (ASCII part). -/
def isPySpace (c : Char) : Bool :=
  c = ' ' || c = '\t' || c = '\n' || c = '\r' || c = '\x0b' || c = '\x0c'

/-- Python `s.strip()`: remove leading and trailing whitespace. -/
def pyStrip (s : PyStr) : PyStr :=
  ((s.dropWhile isPySpace).reverse.dropWhile isPySpace).reverse

/-- Python `s.lower()` (ASCII). -/
def pyLower (s : PyStr) : PyStr :=
  s.map Char.toLower

/-- Python `s.capitalize()` (ASCII): first character upper-cased, rest lower-cased. -/
def pyCapitalize : PyStr → PyStr
  | [] => []
  | c :: rest => c.toUpper :: pyLower rest

/-- Python `s.split(sep)[0] ... `: here we need `split` itself.
`pySplit sep s` is Python `s.split(sep)` for a one-character separator. -/
def pySplit (sep : Char) : PyStr → List PyStr
  | [] => [[]]
  | c :: rest =>
    if c = sep then [] :: pySplit sep rest
    else
      match pySplit sep rest with
      | [] => [[c]]
      | p :: ps => (c :: p) :: ps

/-- Python `sep.join(words)` for `sep = ' '`. -/
def joinSpace : List PyStr → PyStr
  | [] => []
  | [w] => w
  | w :: ws => w ++ ' ' :: joinSpace ws

/-- Python substring test `pat in s` (naive scan). -/
def hasSub (pat : PyStr) : PyStr → Bool
  | [] => decide (pat = [])
  | c :: rest => pat.isPrefixOf (c :: rest) || hasSub pat rest

/-- One left-to-right pass of Python `s.replace(pat, '')` with a fuel bound
(the fuel `s.length` always suffices; running out returns the rest unchanged). -/
def replaceAllFuel (pat : PyStr) : Nat → PyStr → PyStr
  | 0, s => s
  | _ + 1, [] => []
  | fuel + 1, c :: rest =>
    if !pat.isEmpty && pat.isPrefixOf (c :: rest) then
      replaceAllFuel pat fuel ((c :: rest).drop pat.length)
    else
      c :: replaceAllFuel pat fuel rest

/-- Python `s.replace(pat, '')`: delete every (non-overlapping, leftmost)
occurrence of `pat`. -/
def replaceAll (pat s : PyStr) : PyStr :=
  replaceAllFuel pat s.length s

/-! ## email_filter.py -/

/-- The eight rule groups of `EmailFilter._fallback_filter`
(`support_patterns`, each regex `^(w1|w2|...)@` kept as its word list). -/
def support_patterns : List (List PyStr) :=
  [ [("support".toList), ("help".toList), ("info".toList), ("contact".toList),
     ("customer".toList), ("service".toList)],
    [("hr".toList), ("careers".toList), ("jobs".toList), ("recruiting".toList),
     ("talent".toList)],
    [("sales".toList), ("marketing".toList), ("admin".toList), ("office".toList)],
    [("noreply".toList), ("donotreply".toList), ("no-reply".toList),
     ("automated".toList)],
    [("webmaster".toList), ("postmaster".toList), ("mail".toList),
     ("email".toList)],
    [("billing".toList), ("accounting".toList), ("finance".toList)],
    [("legal".toList), ("compliance".toList), ("security".toList)],
    [("it".toList), ("tech".toList), ("system".toList), ("server".toList)] ]

/-- All role words of `support_patterns`, flattened. -/
def support_words_all : List PyStr :=
  support_patterns.flatten

/-- `any(re.match(pattern, email_lower) for pattern in support_patterns)`:
the lowered email starts with one of the role words followed by `@`. -/
def matches_support (email_lower : PyStr) : Bool :=
  support_patterns.any fun g => g.any fun w => (w ++ ['@']).isPrefixOf email_lower

/-- `EmailFilter._split_concatenated_name`. -/
def split_concatenated_name (name0 : PyStr) : List PyStr :=
  let name := pyLower name0
  if (['m', 's']).isSuffixOf name then
    [name.take (name.length - 2), ['m', 's']]
  else if (['j', 'r']).isSuffixOf name then
    [name.take (name.length - 2), ['j', 'r']]
  else if 6 < name.length then
    let mid := name.length / 2
    [name.take mid, name.drop mid]
  else
    [name]

/-- `EmailFilter._extract_name_from_email`.  The `try` body never raises
(every step is total), so the `except` arm is dead and not modelled. -/
def extract_name_from_email (email : PyStr) : PyStr :=
  let lp0 := email.takeWhile (fun c => c ≠ '@')
  let lp := (lp0.reverse.dropWhile Char.isDigit).reverse
  let parts :=
    if lp.any (fun c => c = '.') then pySplit '.' lp
    else if lp.any (fun c => c = '_') then pySplit '_' lp
    else split_concatenated_name lp
  let name :=
    joinSpace ((parts.filter fun w => !w.isEmpty && decide (1 < w.length)).map pyCapitalize)
  if name.isEmpty then pyCapitalize lp else name

/-- An entry of the `real_people` bucket: a dict with `email` and `name` keys. -/
structure RealPerson where
  email : PyStr
  name : PyStr
deriving DecidableEq, Repr

/-- The classifying loop of `EmailFilter._fallback_filter` (the `for email
in emails` loop building `real_people` and `support_emails` in input order). -/
def fallback_classify : List PyStr → List RealPerson × List PyStr
  | [] => ([], [])
  | email :: rest =>
    let (ps, ss) := fallback_classify rest
    let email_lower := pyLower email
    if matches_support email_lower then
      (ps, email :: ss)
    else
      let local_part := email_lower.takeWhile (fun c => c ≠ '@')
      if local_part.any (fun c => c = '.') || local_part.any (fun c => c = '_')
          || decide (3 < local_part.length) then
        ({ email := email, name := extract_name_from_email email } :: ps, ss)
      else
        (ps, email :: ss)

/-- The dict returned by `EmailFilter._fallback_filter`. -/
structure FilterResult where
  real_people : List RealPerson
  support_emails : List PyStr
  analysis : PyStr
  emails_only : List PyStr
  names_only : List PyStr
deriving DecidableEq, Repr

/-- `EmailFilter._fallback_filter` (the `company_domain` argument is unused
by the logic, as in the source). -/
def fallback_filter (emails : List PyStr) (_company_domain : PyStr) : FilterResult :=
  let (real_people, support_emails) := fallback_classify emails
  { real_people := real_people
    support_emails := support_emails
    analysis :=
      ("Rule-based filtering: ".toList) ++ (toString real_people.length).toList
        ++ (" potential people, ".toList) ++ (toString support_emails.length).toList
        ++ (" support emails".toList)
    emails_only := real_people.map (fun p => p.email)
    names_only := real_people.map (fun p => p.name) }

/-- Sanity check: `john.smith@x.com` yields `John Smith`. -/
theorem sanity_extract_dot :
    extract_name_from_email ("john.smith@x.com".toList) = ("John Smith".toList) := by
  decide

/-- Sanity check: trailing digits are stripped before splitting. -/
theorem sanity_extract_digits :
    extract_name_from_email ("robert.johnson123@x.com".toList)
      = ("Robert Johnson".toList) := by
  decide

/-- Sanity check: `support@` matches the support patterns, `supporter@`
does not (the regex requires the `@` right after the role word). -/
theorem sanity_matches_support :
    matches_support ("support@a.com".toList) = true
    ∧ matches_support ("supporter@a.com".toList) = false := by
  decide

/-! ## email_scraper.py : clean_domain -/

/-- The normalization pipeline of `EmailScraper.clean_domain`
(everything before the final `'.' in domain` check): strip, lower,
delete `https://`, `http://` and `www.`, truncate at the first `/`. -/
def clean_domain_pipeline (domain_input : PyStr) : PyStr :=
  let d0 := pyLower (pyStrip domain_input)
  let d1 := replaceAll ("https://".toList) d0
  let d2 := replaceAll ("http://".toList) d1
  let d3 := replaceAll ("www.".toList) d2
  d3.takeWhile (fun c => c ≠ '/')

/-- `EmailScraper.clean_domain`: `None` when the normalized string has no dot. -/
def clean_domain (domain_input : PyStr) : Option PyStr :=
  let domain := clean_domain_pipeline domain_input
  if domain.any (fun c => c = '.') then some domain else none

/-- Sanity check: scheme, `www.` and path are removed; case is lowered. -/
theorem sanity_clean_domain :
    clean_domain ("https://www.Example.com/about".toList)
      = some ("example.com".toList)
    ∧ clean_domain ("nodot".toList) = none := by
  decide

/-! ## ai_service.py -/

/-- Predefined fallback template 1 of `AIService.get_predefined_templates`. -/
def template1 : PyStr :=
  ("Most scaling challenges feel like you\x27re constantly putting out fires — but that\x27s where the interesting engineering problems live. I\x27m Mantavya Mahajan, a Computer Science and Mathematics student at Penn State, currently working as a GenAI intern at Scale AI. I\x27ve been following your company\x27s work in building robust infrastructure, and your approach to handling high-throughput systems really stands out. My experience with optimizing API performance (boosted throughput by 15% to 1,440 req/sec at M8) and building ML pipelines could be valuable as you scale. Here\x27s some of my work: https://mantavya-mahajan-portfolio.vercel.app/. Would you be open to a quick chat about internship opportunities this summer, or even fall and full-time roles starting December 2025?".toList)

/-- Predefined fallback template 2 of `AIService.get_predefined_templates`. -/
def template2 : PyStr :=
  ("Building products that actually solve real problems is harder than it looks — most tools end up being clunky workarounds. I\x27m Mantavya Mahajan, a Computer Science and Mathematics student at Penn State, currently working as a GenAI intern at Scale AI. Your product\x27s focus on user experience and technical elegance really caught my attention. With my background in full-stack development and AI systems (built multi-agent workflows reducing content creation time by 60%), I\x27d love to contribute to what you\x27re building. Check out my work: https://mantavya-mahajan-portfolio.vercel.app/. Would you be open to a quick chat about summer internships or full-time opportunities starting December 2025?".toList)

/-- Predefined fallback template 3 of `AIService.get_predefined_templates`. -/
def template3 : PyStr :=
  ("Data pipelines that actually work reliably are surprisingly rare — yours seem to be the exception. I\x27m Mantavya Mahajan, a CS and Math student at Penn State, currently interning at Scale AI on GenAI systems. I\x27ve been impressed by your approach to handling large-scale data processing and your focus on reliability. My experience with building RAG systems, optimizing database performance, and working with real-time data processing could add value to your team. Here\x27s my portfolio: https://mantavya-mahajan-portfolio.vercel.app/. Would you be interested in a quick chat about internship opportunities or full-time roles starting December 2025?".toList)

/-- Predefined fallback template 4 of `AIService.get_predefined_templates`. -/
def template4 : PyStr :=
  ("Most AI tools feel like black boxes wrapped in hype — but your approach to transparency and practical implementation is refreshing. I\x27m Mantavya Mahajan, a Computer Science and Mathematics student at Penn State, currently working as a GenAI intern at Scale AI. Your work on making AI actually useful for real business problems really resonates with me. With my experience in LLM optimization, building evaluation frameworks, and full-stack AI applications, I think I could contribute meaningfully to your mission. Check out my work: https://mantavya-mahajan-portfolio.vercel.app/. Would you be open to discussing summer internship or full-time opportunities starting December 2025?".toList)

/-- `AIService.get_predefined_templates`: `random.choice` over the four
templates, modelled by an explicit choice index. -/
def get_predefined_templates : Fin 4 → PyStr
  | 0 => template1
  | 1 => template2
  | 2 => template3
  | 3 => template4

/-- Outcome of one `model.generate_content(prompt)` call:
it raises, returns a falsy response / falsy `response.text`,
or returns text. -/
inductive GenOutcome where
  | raises : GenOutcome
  | noText : GenOutcome
  | text : PyStr → GenOutcome
deriving DecidableEq

/-- The quality check on generated text:
`len(generated_email) > 200 and "Mantavya Mahajan" in generated_email`. -/
def quality_ok (g : PyStr) : Bool :=
  decide (200 < g.length) && hasSub ("Mantavya Mahajan".toList) g

/-- The `for attempt in range(len(self.models))` retry loop of
`AIService.generate_personalized_paragraph`.  `models` lists the
`generate_content` outcome of each configured model, `idx` is
`self.current_key_index`, the fuel is the remaining attempt count.
Returns (early-return value if any, final `current_key_index`,
list of model indices on which `generate_content` was attempted). -/
def try_models (models : List GenOutcome) : Nat → Nat → Option PyStr × Nat × List Nat
  | 0, idx => (none, idx, [])
  | fuel + 1, idx =>
    let attempt : Option PyStr :=
      match models.get? idx with
      | some (GenOutcome.text s) =>
        let g := pyStrip s
        if quality_ok g then some g else none
      | _ => none
    match attempt with
    | some g => (some g, idx, [idx])
    | none =>
      let idx2 := (idx + 1) % models.length
      let r := try_models models fuel idx2
      (r.1, r.2.1, idx :: r.2.2)

/-- `AIService.generate_personalized_paragraph`.  `tchoice` resolves the
`random.choice` in `get_predefined_templates`.  Returns (returned string,
final `current_key_index`, attempted model indices). -/
def generate_personalized_paragraph (models : List GenOutcome) (idx : Nat)
    (tchoice : Fin 4) (resume_content job_description : PyStr) :
    PyStr × Nat × List Nat :=
  if models.isEmpty then
    (get_predefined_templates tchoice, idx, [])
  else if resume_content.isEmpty || job_description.isEmpty then
    (get_predefined_templates tchoice, idx, [])
  else
    match try_models models models.length idx with
    | (some g, fin, att) => (g, fin, att)
    | (none, fin, att) => (get_predefined_templates tchoice, fin, att)

/-! ## email_service.py -/

/-- `EmailService.send_email`, with one outcome per configured provider:
`true` when the SMTP dialogue delivers the message, `false` when it raises
(every exception is caught and the loop moves to the next provider).
Returns (the boolean result, the number of providers contacted). -/
def send_email : List Bool → Bool × Nat
  | [] => (false, 0)
  | p :: rest =>
    if p then (true, 1)
    else
      let r := send_email rest
      (r.1, r.2 + 1)

/-- The counters dict built by `EmailService.send_bulk_emails`. -/
structure BulkResults where
  sent : Nat
  failed : Nat
  total : Nat
deriving DecidableEq, Repr

/-- Per-recipient outcome inside `send_bulk_emails`: `none` when the body
raises before/at the send (caught, counted as failed), `some b` for a
`send_email` returning `b`. -/
def send_bulk_go (step : PyStr → Option Bool) : List PyStr → Nat × Nat
  | [] => (0, 0)
  | e :: rest =>
    let r := send_bulk_go step rest
    match step e with
    | some true => (r.1 + 1, r.2)
    | some false => (r.1, r.2 + 1)
    | none => (r.1, r.2 + 1)

/-- `EmailService.send_bulk_emails`: `total` is fixed up front, then one
increment of `sent` or `failed` per recipient. -/
def send_bulk_emails (email_list : List PyStr) (step : PyStr → Option Bool) :
    BulkResults :=
  let r := send_bulk_go step email_list
  { sent := r.1, failed := r.2, total := email_list.length }

/-! ## app.py -/

/-- Campaign status strings (`'running'`, `'completed'`, `'failed'`). -/
inductive CampaignStatus where
  | running : CampaignStatus
  | completed : CampaignStatus
  | failed : CampaignStatus
deriving DecidableEq, Repr

/-- The in-memory campaign record dict.  `linkedin_sent` is the initial key
of that name (never updated by the code); `linkedin_people_found` and
`linkedin_connections_sent` are added later by the LinkedIn block, so they
are `Option` (absent key = `none`, read back with `.get(key, 0)`).
`completed_at` (a wall-clock time) is not modelled. -/
structure Campaign where
  id : Nat
  domain : PyStr
  status : CampaignStatus
  emails_found : Nat
  emails_sent : Nat
  linkedin_sent : Nat
  linkedin_people_found : Option Nat
  linkedin_connections_sent : Option Nat
  errors : List PyStr
deriving DecidableEq, Repr

/-- The JSON body of a `POST /api/launch` request.  `domain = none` models
an absent or falsy (empty) `domain` field; the two flags are the truthiness
of `email_enabled` / `linkedin_enabled` (absent = falsy). -/
structure LaunchData where
  domain : Option PyStr
  email_enabled : Bool
  linkedin_enabled : Bool
  target_email_count : Nat
  job_description : PyStr
deriving DecidableEq, Repr

/-- The module-level mutable state of `app.py`:
`campaign_counter` and `campaign_results`. -/
structure ServerState where
  campaign_counter : Nat
  campaign_results : List Campaign
deriving DecidableEq, Repr

/-- The fresh `result` dict built at the top of `run_campaign_async`. -/
def init_record (cid : Nat) (data : LaunchData) : Campaign :=
  { id := cid
    domain := data.domain.getD []
    status := CampaignStatus.running
    emails_found := 0
    emails_sent := 0
    linkedin_sent := 0
    linkedin_people_found := none
    linkedin_connections_sent := none
    errors := [] }

/-- The initialization prefix of `run_campaign_async` (executed on the
background thread): read `campaign_counter` as the new id, increment it,
and append the fresh record to `campaign_results`.
Returns the new state and the campaign id. -/
def thread_init (data : LaunchData) (s : ServerState) : ServerState × Nat :=
  let cid := s.campaign_counter
  ({ campaign_counter := cid + 1
     campaign_results := s.campaign_results ++ [init_record cid data] }, cid)

/-- Which of the two shared-state accesses happens first: the background
thread initializing the record, or the HTTP handler building its response
(`campaign_counter - 1`).  The code does not synchronize them. -/
inductive LaunchOrder where
  | threadFirst : LaunchOrder
  | responseFirst : LaunchOrder
deriving DecidableEq

/-- Result of one `POST /api/launch` request. -/
structure LaunchResult where
  httpStatus : Nat
  campaign_id : Option Nat
  state : ServerState
  launched : Bool
deriving DecidableEq, Repr

/-- `launch_campaign` (the `/api/launch` handler) together with the
initialization prefix of the background thread it spawns.  Validation
happens before the thread starts; for a valid request the final state is
the same in both interleavings but the response reads `campaign_counter`
without synchronization. -/
def launch_campaign (data : LaunchData) (s : ServerState) (ord : LaunchOrder) :
    LaunchResult :=
  if data.domain = none ∨ data.domain = some [] then
    { httpStatus := 400, campaign_id := none, state := s, launched := false }
  else if data.email_enabled = false ∧ data.linkedin_enabled = false then
    { httpStatus := 400, campaign_id := none, state := s, launched := false }
  else
    match ord with
    | LaunchOrder.threadFirst =>
      let s2 := (thread_init data s).1
      { httpStatus := 200, campaign_id := some (s2.campaign_counter - 1),
        state := s2, launched := true }
    | LaunchOrder.responseFirst =>
      let resp := s.campaign_counter - 1
      let s2 := (thread_init data s).1
      { httpStatus := 200, campaign_id := some resp, state := s2, launched := true }

/-- Outcome of one iteration of the per-email send loop in
`run_campaign_async`: the `generate_personalized_email` call raises (the
method does not exist on `AIService`, so at runtime this is always
`raises`; we keep the general oracle), or it succeeds and
`email_service.send_email` returns the boolean. -/
inductive EmailStepOutcome where
  | raises : EmailStepOutcome
  | sendOk : EmailStepOutcome
  | sendFail : EmailStepOutcome
deriving DecidableEq

/-- Oracle for the effectful calls made by the body of
`run_campaign_async`: the scraper result (or an exception message), the
per-email loop outcome and the LinkedIn search result (connected flags of
the returned people, or an exception message). -/
structure CampaignEnv where
  scrape : Except PyStr (List PyStr)
  emailStep : PyStr → EmailStepOutcome
  linkedinSearch : Except PyStr (List Bool)

/-- The email-outreach block of `run_campaign_async` (the
`if email_enabled:` block).  Returns the updated record and the value of
the Python local `emails` (`none` when the block did not run or raised
before assigning it — a later read then raises `NameError`). -/
def email_phase (data : LaunchData) (env : CampaignEnv) (r : Campaign) :
    Campaign × Option (List PyStr) :=
  if data.email_enabled then
    match env.scrape with
    | Except.error msg =>
      ({ r with errors := r.errors ++ [("Email error: ".toList) ++ msg] }, none)
    | Except.ok emails =>
      let r1 := { r with emails_found := emails.length }
      if emails.isEmpty then
        (r1, some emails)
      else
        let sent := ((emails.take data.target_email_count).filter
          (fun e => env.emailStep e = EmailStepOutcome.sendOk)).length
        ({ r1 with emails_sent := sent }, some emails)
  else
    (r, none)

/-- The LinkedIn-outreach block of `run_campaign_async` (the
`if linkedin_enabled:` block).  Reading the undefined local `emails`
raises `NameError`, caught by the block's `except`. -/
def linkedin_phase (data : LaunchData) (env : CampaignEnv)
    (r : Campaign) (emailsVar : Option (List PyStr)) : Campaign :=
  if data.linkedin_enabled then
    match emailsVar with
    | none =>
      { r with errors := r.errors
          ++ [("LinkedIn error: name \x27emails\x27 is not defined".toList)] }
    | some emails =>
      let target_emails := if emails.isEmpty then [] else emails.take 10
      if target_emails.isEmpty then
        r
      else
        match env.linkedinSearch with
        | Except.error msg =>
          { r with errors := r.errors ++ [("LinkedIn error: ".toList) ++ msg] }
        | Except.ok flags =>
          { r with linkedin_people_found := some flags.length,
                   linkedin_connections_sent := some (flags.countP id) }
  else
    r

/-- The body of `run_campaign_async` after the record has been appended:
domain cleaning, the two outreach blocks, and the final status update.
The `Invalid domain` early return and the final `completed`/`failed`
decision are both modelled; `completed_at` is not. -/
def run_campaign_body (data : LaunchData) (env : CampaignEnv) (cid : Nat) :
    Campaign :=
  let r0 := init_record cid data
  match clean_domain (data.domain.getD []) with
  | none =>
    { r0 with status := CampaignStatus.failed,
              errors := r0.errors ++ [("Invalid domain".toList)] }
  | some _ =>
    let p := email_phase data env r0
    let r2 := linkedin_phase data env p.1 p.2
    if 0 < r2.emails_sent ∨ 0 < r2.linkedin_connections_sent.getD 0 then
      { r2 with status := CampaignStatus.completed }
    else
      { r2 with status := CampaignStatus.failed }

/-! ## Theorems -/

/-- C5: `EmailService.send_email` tries the configured providers in list
order: it returns `False` exactly when the provider list is empty or every
provider fails, and the number of providers it contacts is the failing
prefix plus (when some provider delivers) that one provider — so a
delivery stops the loop and later providers are never contacted.  Every
provider exception is caught inside the loop, so the embedding is a total
function: no exception propagates. -/
theorem send_email_spec (providers : List Bool) :
    ((send_email providers).1 = false
      ↔ providers = [] ∨ ∀ p ∈ providers, p = false)
    ∧ (send_email providers).2
        = (providers.takeWhile (fun p => !p)).length
          + (if providers.contains true then 1 else 0) := by
  induction providers with
  | nil => exact ⟨by simp [send_email], by simp [send_email]⟩
  | cons p rest ih =>
    cases p with
    | true =>
      refine ⟨by simp [send_email], ?_⟩
      have hr : send_email (true :: rest) = (true, 1) := rfl
      rw [hr]
      simp
    | false =>
      have hr : send_email (false :: rest)
          = ((send_email rest).1, (send_email rest).2 + 1) := rfl
      refine ⟨?_, ?_⟩
      · rw [hr]
        constructor
        · intro h
          rcases ih.1.mp h with hnil | hall
          · subst hnil
            right
            intro p hp
            rcases List.mem_cons.mp hp with rfl | hp2
            · rfl
            · simp at hp2
          · right
            intro p hp
            rcases List.mem_cons.mp hp with rfl | hp2
            · rfl
            · exact hall p hp2
        · intro h
          apply ih.1.mpr
          rcases h with hnil | hall
          · exact absurd hnil (by simp)
          · right
            intro p hp
            exact hall p (List.mem_cons_of_mem _ hp)
      · rw [hr]
        have ht : (false :: rest).takeWhile (fun p => !p)
            = false :: rest.takeWhile (fun p => !p) := rfl
        have hc : (false :: rest).contains true = rest.contains true := rfl
        simp only [ht, hc, List.length_cons]
        have h2 := ih.2
        omega

/-- C8: `EmailService.send_bulk_emails` returns a dict whose `total` is
the length of the input list and whose `sent` and `failed` counters sum to
`total` (exactly one of them is incremented per recipient, also when the
per-recipient body raises). -/
theorem send_bulk_spec (email_list : List PyStr) (step : PyStr → Option Bool) :
    (send_bulk_emails email_list step).total = email_list.length
    ∧ (send_bulk_emails email_list step).sent
        + (send_bulk_emails email_list step).failed
        = (send_bulk_emails email_list step).total := by
  refine ⟨rfl, ?_⟩
  show (send_bulk_go step email_list).1 + (send_bulk_go step email_list).2
      = email_list.length
  induction email_list with
  | nil => rfl
  | cons e rest ih =>
    simp only [send_bulk_go, List.length_cons]
    rcases h : step e with _ | b
    · show (send_bulk_go step rest).1 + ((send_bulk_go step rest).2 + 1)
          = rest.length + 1
      omega
    · cases b
      · show (send_bulk_go step rest).1 + ((send_bulk_go step rest).2 + 1)
            = rest.length + 1
        omega
      · show ((send_bulk_go step rest).1 + 1) + (send_bulk_go step rest).2
            = rest.length + 1
        omega

/-- C7: a launch request with a missing/falsy `domain`, or with both
`email_enabled` and `linkedin_enabled` falsy, gets HTTP 400 and leaves the
in-memory state untouched: validation runs before the background thread is
spawned, so nothing is appended and the counter keeps its value. -/
theorem launch_validation (data : LaunchData) (s : ServerState)
    (ord : LaunchOrder)
    (h : data.domain = none ∨ data.domain = some []
        ∨ (data.email_enabled = false ∧ data.linkedin_enabled = false)) :
    (launch_campaign data s ord).httpStatus = 400
    ∧ (launch_campaign data s ord).state = s
    ∧ (launch_campaign data s ord).launched = false := by
  unfold launch_campaign
  split_ifs with h1 h2
  · exact ⟨rfl, rfl, rfl⟩
  · exact ⟨rfl, rfl, rfl⟩
  · rcases h with h | h | h
    · exact absurd (Or.inl h) h1
    · exact absurd (Or.inr h) h1
    · exact absurd h h2

/-- C7 witness: a request without a domain is rejected with 400 and the
state `⟨1, []⟩` is unchanged. -/
theorem launch_validation_witness :
    (launch_campaign
        { domain := none, email_enabled := true, linkedin_enabled := true,
          target_email_count := 5, job_description := [] }
        { campaign_counter := 1, campaign_results := [] }
        LaunchOrder.threadFirst).httpStatus = 400
    ∧ (launch_campaign
        { domain := none, email_enabled := true, linkedin_enabled := true,
          target_email_count := 5, job_description := [] }
        { campaign_counter := 1, campaign_results := [] }
        LaunchOrder.threadFirst).state
        = { campaign_counter := 1, campaign_results := [] }
    ∧ (launch_campaign
        { domain := none, email_enabled := true, linkedin_enabled := true,
          target_email_count := 5, job_description := [] }
        { campaign_counter := 1, campaign_results := [] }
        LaunchOrder.threadFirst).launched = false :=
  launch_validation _ _ _ (Or.inl rfl)

/-- C6 counterexample: the handler builds `campaign_id` as
`campaign_counter - 1` without synchronizing with the spawned thread.  On
the fresh state (counter 1) a valid request whose response is built before
the thread's initialization runs returns `campaign_id = 0`, while the one
record the campaign appends has id 1. -/
theorem launch_id_race_cex :
    (launch_campaign
        { domain := some ("x.com".toList), email_enabled := true,
          linkedin_enabled := true, target_email_count := 5,
          job_description := [] }
        { campaign_counter := 1, campaign_results := [] }
        LaunchOrder.responseFirst).httpStatus = 200
    ∧ (launch_campaign
        { domain := some ("x.com".toList), email_enabled := true,
          linkedin_enabled := true, target_email_count := 5,
          job_description := [] }
        { campaign_counter := 1, campaign_results := [] }
        LaunchOrder.responseFirst).campaign_id = some 0
    ∧ (launch_campaign
        { domain := some ("x.com".toList), email_enabled := true,
          linkedin_enabled := true, target_email_count := 5,
          job_description := [] }
        { campaign_counter := 1, campaign_results := [] }
        LaunchOrder.responseFirst).state.campaign_results.map
          (fun c => c.id) = [1]
    ∧ (0 : Nat) ≠ 1 := by
  refine ⟨rfl, rfl, by decide, by decide⟩

/-- C6 amended: every successful `POST /api/launch` appends exactly one
new campaign record (with id equal to the pre-launch counter value); the
`campaign_id` in the HTTP response equals that record's id provided the
background thread's initialization runs before the response is built — in
the other interleaving the response reports one less (see the
counterexample). -/
theorem launch_spec (data : LaunchData) (s : ServerState) (ord : LaunchOrder)
    (h1 : ¬(data.domain = none ∨ data.domain = some []))
    (h2 : ¬(data.email_enabled = false ∧ data.linkedin_enabled = false)) :
    (launch_campaign data s ord).state.campaign_results
      = s.campaign_results ++ [init_record s.campaign_counter data]
    ∧ (launch_campaign data s LaunchOrder.threadFirst).campaign_id
      = some (init_record s.campaign_counter data).id := by
  unfold launch_campaign thread_init
  simp only [if_neg h1, if_neg h2]
  cases ord with
  | threadFirst =>
    refine ⟨rfl, ?_⟩
    show some (s.campaign_counter + 1 - 1)
        = some (init_record s.campaign_counter data).id
    rw [Nat.add_sub_cancel]
    rfl
  | responseFirst =>
    refine ⟨rfl, ?_⟩
    show some (s.campaign_counter + 1 - 1)
        = some (init_record s.campaign_counter data).id
    rw [Nat.add_sub_cancel]
    rfl

/-- C6 witness: on the fresh state and a valid request, in the
thread-first interleaving, exactly the record with id 1 is appended and
the response reports `campaign_id = 1`. -/
theorem launch_spec_witness :
    (launch_campaign
        { domain := some ("x.com".toList), email_enabled := true,
          linkedin_enabled := true, target_email_count := 5,
          job_description := [] }
        { campaign_counter := 1, campaign_results := [] }
        LaunchOrder.threadFirst).state.campaign_results
      = [] ++ [init_record 1
          { domain := some ("x.com".toList), email_enabled := true,
            linkedin_enabled := true, target_email_count := 5,
            job_description := [] }]
    ∧ (launch_campaign
        { domain := some ("x.com".toList), email_enabled := true,
          linkedin_enabled := true, target_email_count := 5,
          job_description := [] }
        { campaign_counter := 1, campaign_results := [] }
        LaunchOrder.threadFirst).campaign_id
      = some (init_record 1
          { domain := some ("x.com".toList), email_enabled := true,
            linkedin_enabled := true, target_email_count := 5,
            job_description := [] }).id :=
  launch_spec _ _ _ (by decide) (by decide)

/-- C1: `EmailFilter._fallback_filter` partitions its input: the emails of
the `real_people` entries (dicts with `email` and `name` keys) together
with the `support_emails` bucket are a permutation of the input list — no
email is dropped or duplicated — and the bucket sizes sum to the input
length. -/
theorem fallback_filter_partition (emails : List PyStr) (company_domain : PyStr) :
    ((fallback_filter emails company_domain).real_people.map (fun p => p.email)
        ++ (fallback_filter emails company_domain).support_emails).Perm emails
    ∧ (fallback_filter emails company_domain).real_people.length
        + (fallback_filter emails company_domain).support_emails.length
        = emails.length := by
  have key : ∀ l : List PyStr,
      ((fallback_classify l).1.map (fun p => p.email)
          ++ (fallback_classify l).2).Perm l
      ∧ (fallback_classify l).1.length + (fallback_classify l).2.length
          = l.length := by
    intro l
    induction l with
    | nil => exact ⟨List.Perm.refl _, rfl⟩
    | cons e rest ih =>
      simp only [fallback_classify]
      split
      · refine ⟨?_, ?_⟩
        · exact (List.perm_middle).trans (ih.1.cons e)
        · simp only [List.length_cons]
          have := ih.2
          omega
      · split
        · refine ⟨?_, ?_⟩
          · simpa using ih.1.cons e
          · simp only [List.length_cons]
            have := ih.2
            omega
        · refine ⟨?_, ?_⟩
          · exact (List.perm_middle).trans (ih.1.cons e)
          · simp only [List.length_cons]
            have := ih.2
            omega
  exact key emails

/-- C10: the background campaign body always ends in a terminal status —
`completed` or `failed`, never `running` — for every oracle behaviour of
the scraper, the per-email loop and the LinkedIn search; and whenever it
finishes with zero emails sent and zero LinkedIn connections sent it is
marked `failed`, regardless of the errors list. -/
theorem campaign_terminal (data : LaunchData) (env : CampaignEnv) (cid : Nat) :
    ((run_campaign_body data env cid).status = CampaignStatus.completed
      ∨ (run_campaign_body data env cid).status = CampaignStatus.failed)
    ∧ ((run_campaign_body data env cid).emails_sent = 0
        ∧ (run_campaign_body data env cid).linkedin_connections_sent.getD 0 = 0
        → (run_campaign_body data env cid).status = CampaignStatus.failed) := by
  unfold run_campaign_body
  split
  · exact ⟨Or.inr rfl, fun _ => rfl⟩
  · dsimp only
    split
    · refine ⟨Or.inl rfl, ?_⟩
      intro h
      rename_i hcond
      have h1 : (linkedin_phase data env
          (email_phase data env (init_record cid data)).1
          (email_phase data env (init_record cid data)).2).emails_sent = 0 := h.1
      have h2 : (linkedin_phase data env
          (email_phase data env (init_record cid data)).1
          (email_phase data env
            (init_record cid data)).2).linkedin_connections_sent.getD 0 = 0 := h.2
      rcases hcond with hc | hc <;> omega
    · exact ⟨Or.inr rfl, fun _ => rfl⟩

/-- C10 witness: a concrete run (valid domain, scraper finds nothing,
LinkedIn finds nothing) ends `failed`, with zero sends on both channels. -/
theorem campaign_terminal_witness :
    ((run_campaign_body
        { domain := some ("x.com".toList), email_enabled := true,
          linkedin_enabled := true, target_email_count := 5,
          job_description := [] }
        { scrape := Except.ok [],
          emailStep := fun _ => EmailStepOutcome.raises,
          linkedinSearch := Except.ok [] } 1).status = CampaignStatus.completed
      ∨ (run_campaign_body
        { domain := some ("x.com".toList), email_enabled := true,
          linkedin_enabled := true, target_email_count := 5,
          job_description := [] }
        { scrape := Except.ok [],
          emailStep := fun _ => EmailStepOutcome.raises,
          linkedinSearch := Except.ok [] } 1).status = CampaignStatus.failed)
    ∧ (run_campaign_body
        { domain := some ("x.com".toList), email_enabled := true,
          linkedin_enabled := true, target_email_count := 5,
          job_description := [] }
        { scrape := Except.ok [],
          emailStep := fun _ => EmailStepOutcome.raises,
          linkedinSearch := Except.ok [] } 1).status = CampaignStatus.failed := by
  have h := campaign_terminal
    { domain := some ("x.com".toList), email_enabled := true,
      linkedin_enabled := true, target_email_count := 5,
      job_description := [] }
    { scrape := Except.ok [],
      emailStep := fun _ => EmailStepOutcome.raises,
      linkedinSearch := Except.ok [] } 1
  exact ⟨h.1, h.2 (by constructor <;> rfl)⟩

/-- Every `real_people` entry produced by the fallback classifier comes
from an email that does not match the support patterns. -/
theorem classify_people_not_support (l : List PyStr) (p : RealPerson)
    (hp : p ∈ (fallback_classify l).1) :
    matches_support (pyLower p.email) = false := by
  induction l with
  | nil => simp [fallback_classify] at hp
  | cons e rest ih =>
    simp only [fallback_classify] at hp
    rcases hr : fallback_classify rest with ⟨ps, ss⟩
    rw [hr] at hp
    by_cases hm : matches_support (pyLower e) = true
    · rw [if_pos hm] at hp
      exact ih (by rw [hr]; exact hp)
    · rw [if_neg hm] at hp
      rw [Bool.not_eq_true] at hm
      split at hp
      · rcases List.mem_cons.mp hp with rfl | hp2
        · exact hm
        · exact ih (by rw [hr]; exact hp2)
      · exact ih (by rw [hr]; exact hp)

/-- An input email matching the support patterns lands in the support
bucket of the fallback classifier. -/
theorem classify_support_mem (l : List PyStr) (e : PyStr)
    (he : e ∈ l) (hm : matches_support (pyLower e) = true) :
    e ∈ (fallback_classify l).2 := by
  induction l with
  | nil => simp at he
  | cons a rest ih =>
    simp only [fallback_classify]
    rcases hr : fallback_classify rest with ⟨ps, ss⟩
    rcases List.mem_cons.mp he with rfl | he2
    · rw [if_pos hm]
      exact List.mem_cons_self _ _
    · have hmem : e ∈ ss := by
        have := ih he2
        rw [hr] at this
        exact this
      by_cases ha : matches_support (pyLower a) = true
      · rw [if_pos ha]
        exact List.mem_cons_of_mem _ hmem
      · rw [if_neg ha]
        split
        · exact hmem
        · exact List.mem_cons_of_mem _ hmem

/-- C2: an email whose local part (case-insensitively) is exactly one of
the role words of the fallback `support_patterns` — support, help, info,
contact, customer, service, hr, careers, jobs, recruiting, talent, sales,
marketing, admin, office, noreply, donotreply, no-reply, automated,
webmaster, postmaster, mail, email, billing, accounting, finance, legal,
compliance, security, it, tech, system, server — is placed in
`support_emails` and never in `real_people`. -/
theorem support_word_classified (e w t : PyStr) (emails : List PyStr)
    (company_domain : PyStr)
    (h1 : w ∈ support_words_all)
    (h2 : pyLower e = w ++ '@' :: t)
    (h3 : e ∈ emails) :
    (fallback_filter emails company_domain).support_emails.contains e = true
    ∧ ((fallback_filter emails company_domain).real_people.map
        (fun p => p.email)).contains e = false := by
  have hm : matches_support (pyLower e) = true := by
    rcases List.mem_flatten.mp h1 with ⟨g, hg, hw⟩
    simp only [matches_support, List.any_eq_true]
    refine ⟨g, hg, w, hw, ?_⟩
    rw [List.isPrefixOf_iff_prefix, h2]
    exact ⟨t, by simp⟩
  constructor
  · rw [List.contains_eq_any_beq, List.any_eq_true]
    exact ⟨e, classify_support_mem emails e h3 hm, by simp⟩
  · rw [List.contains_eq_any_beq]
    rw [Bool.eq_false_iff]
    intro hany
    rw [List.any_eq_true] at hany
    rcases hany with ⟨x, hx, hbeq⟩
    rcases List.mem_map.mp hx with ⟨p, hp, hpe⟩
    have hfalse := classify_people_not_support emails p hp
    have hex : x = e := by
      have := eq_of_beq hbeq
      exact this.symm
    rw [hex] at hpe
    rw [hpe] at hfalse
    rw [hm] at hfalse
    exact Bool.true_eq_false.mp hfalse

/-- C2 witness: `Support@x.com` (local part `support`) lands in the
support bucket and not among the real people. -/
theorem support_word_classified_witness :
    (fallback_filter [("Support@x.com".toList)]
        ("x.com".toList)).support_emails.contains ("Support@x.com".toList) = true
    ∧ ((fallback_filter [("Support@x.com".toList)]
        ("x.com".toList)).real_people.map
        (fun p => p.email)).contains ("Support@x.com".toList) = false :=
  support_word_classified ("Support@x.com".toList) ("support".toList)
    ("x.com".toList) [("Support@x.com".toList)] ("x.com".toList)
    (by decide) (by decide) (by decide)

/-- Characters of different character classes differ. -/
theorem ne_of_pred (f : Char → Bool) (c a : Char)
    (hc : f c = true) (ha : f a = false) : c ≠ a := by
  intro h
  rw [h, ha] at hc
  exact Bool.false_ne_true hc

/-- An ASCII letter is not a digit. -/
theorem alpha_not_digit (c : Char) (h : c.isAlpha = true) :
    c.isDigit = false := by
  unfold Char.isAlpha Char.isUpper Char.isLower at h
  unfold Char.isDigit
  simp only [Bool.or_eq_true, Bool.and_eq_true, decide_eq_true_eq] at h
  rcases h with ⟨h1, _⟩ | ⟨h1, _⟩
  · have hn : ¬(c.val ≤ 57) := fun hle => absurd (UInt32.le_trans h1 hle) (by decide)
    simp [hn]
  · have hn : ¬(c.val ≤ 57) := fun hle => absurd (UInt32.le_trans h1 hle) (by decide)
    simp [hn]

/-- `takeWhile` over a list whose prefix satisfies the predicate and whose
next element breaks it. -/
theorem takeWhile_append_stop (p : Char → Bool) (xs ys : PyStr) (a : Char)
    (hall : ∀ x ∈ xs, p x = true) (ha : p a = false) :
    (xs ++ a :: ys).takeWhile p = xs := by
  induction xs with
  | nil => simp [List.takeWhile_cons, ha]
  | cons x xs ih =>
    have hx := hall x (List.mem_cons_self _ _)
    simp only [List.cons_append, List.takeWhile_cons, hx, if_true]
    rw [ih fun y hy => hall y (List.mem_cons_of_mem _ hy)]

/-- `dropWhile` skips a leading block that satisfies the predicate. -/
theorem dropWhile_append_of_all (p : Char → Bool) (xs ys : PyStr)
    (hall : ∀ x ∈ xs, p x = true) :
    (xs ++ ys).dropWhile p = ys.dropWhile p := by
  induction xs with
  | nil => rfl
  | cons x xs ih =>
    have hx := hall x (List.mem_cons_self _ _)
    simp only [List.cons_append, List.dropWhile_cons, hx, if_true]
    exact ih fun y hy => hall y (List.mem_cons_of_mem _ hy)

/-- Trailing characters of one class are stripped by
reverse/`dropWhile`/reverse, provided the remaining string does not end in
that class. -/
theorem strip_trailing_block (xs ds : PyStr)
    (hds : ∀ c ∈ ds, c.isDigit = true)
    (hhead : xs.reverse.dropWhile Char.isDigit = xs.reverse) :
    ((xs ++ ds).reverse.dropWhile Char.isDigit).reverse = xs := by
  rw [List.reverse_append,
    dropWhile_append_of_all _ _ _
      (fun x hx => hds x (List.mem_reverse.mp hx)),
    hhead, List.reverse_reverse]

/-- Python `split` on a separator-free string. -/
theorem pySplit_of_not_mem (sep : Char) (w : PyStr) (h : sep ∉ w) :
    pySplit sep w = [w] := by
  induction w with
  | nil => rfl
  | cons c rest ih =>
    have hc : ¬(c = sep) := fun hcs => h (hcs ▸ List.mem_cons_self _ _)
    simp only [pySplit, if_neg hc]
    rw [ih fun hm => h (List.mem_cons_of_mem _ hm)]

/-- Python `split` peels off the first separator-free chunk. -/
theorem pySplit_append (sep : Char) (w1 rest : PyStr) (h : sep ∉ w1) :
    pySplit sep (w1 ++ sep :: rest) = w1 :: pySplit sep rest := by
  induction w1 with
  | nil => simp [pySplit]
  | cons c w1 ih =>
    have hc : ¬(c = sep) := fun hcs => h (hcs ▸ List.mem_cons_self _ _)
    simp only [List.cons_append, pySplit, if_neg hc, List.append_eq]
    rw [ih fun hm => h (List.mem_cons_of_mem _ hm)]

/-- C3: on a local part of two alphabetic words (each of length ≥ 2)
separated by a single dot, with optional trailing digits,
`EmailFilter._extract_name_from_email` strips the digits, splits at the
dot and returns the two words capitalized (Python `str.capitalize`: first
letter upper-cased, rest lower-cased), joined by one space. -/
theorem extract_name_two_words (w1 w2 ds dom : PyStr)
    (ha1 : ∀ c ∈ w1, c.isAlpha = true) (ha2 : ∀ c ∈ w2, c.isAlpha = true)
    (hl1 : 2 ≤ w1.length) (hl2 : 2 ≤ w2.length)
    (hds : ∀ c ∈ ds, c.isDigit = true) :
    extract_name_from_email ((w1 ++ '.' :: (w2 ++ ds)) ++ '@' :: dom)
      = pyCapitalize w1 ++ ' ' :: pyCapitalize w2 := by
  have hA : ((w1 ++ '.' :: (w2 ++ ds)) ++ '@' :: dom).takeWhile
      (fun c => decide (c ≠ '@')) = w1 ++ '.' :: (w2 ++ ds) := by
    apply takeWhile_append_stop
    · intro x hx
      simp only [decide_eq_true_eq]
      rcases List.mem_append.mp hx with hx1 | hx2
      · exact ne_of_pred Char.isAlpha _ _ (ha1 x hx1) (by decide)
      · rcases List.mem_cons.mp hx2 with rfl | hx3
        · decide
        · rcases List.mem_append.mp hx3 with hxa | hxb
          · exact ne_of_pred Char.isAlpha _ _ (ha2 x hxa) (by decide)
          · exact ne_of_pred Char.isDigit _ _ (hds x hxb) (by decide)
    · decide
  have hassoc : w1 ++ '.' :: (w2 ++ ds) = (w1 ++ '.' :: w2) ++ ds := by
    simp
  have hw2 : w2 ≠ [] := by
    intro h
    rw [h] at hl2
    simp at hl2
  obtain ⟨c2, t2, hrev⟩ : ∃ c t, w2.reverse = c :: t := by
    cases hw : w2.reverse with
    | nil =>
      exact absurd (by simpa using congrArg List.reverse hw) hw2
    | cons c t => exact ⟨c, t, rfl⟩
  have hc2 : c2 ∈ w2 := List.mem_reverse.mp (hrev ▸ List.mem_cons_self _ _)
  have hc2d : c2.isDigit = false := alpha_not_digit _ (ha2 _ hc2)
  have hB : (((w1 ++ '.' :: w2) ++ ds).reverse.dropWhile Char.isDigit).reverse
      = w1 ++ '.' :: w2 := by
    apply strip_trailing_block _ _ hds
    rw [List.reverse_append, List.reverse_cons, hrev]
    simp [List.dropWhile_cons, hc2d]
  have hdot1 : '.' ∉ w1 := fun hm => absurd (ha1 _ hm) (by decide)
  have hdot2 : '.' ∉ w2 := fun hm => absurd (ha2 _ hm) (by decide)
  have hC : pySplit '.' (w1 ++ '.' :: w2) = [w1, w2] := by
    rw [pySplit_append _ _ _ hdot1, pySplit_of_not_mem _ _ hdot2]
  have hany : (w1 ++ '.' :: w2).any (fun c => decide (c = '.')) = true := by
    rw [List.any_eq_true]
    exact ⟨'.', List.mem_append_right _ (List.mem_cons_self _ _), by decide⟩
  have hne1 : w1.isEmpty = false := by
    cases w1 with
    | nil => simp at hl1
    | cons _ _ => rfl
  have hne2 : w2.isEmpty = false := by
    cases w2 with
    | nil => simp at hl2
    | cons _ _ => rfl
  have hf1 : (!w1.isEmpty && decide (1 < w1.length)) = true := by
    rw [hne1, decide_eq_true (show 1 < w1.length by omega)]
    rfl
  have hf2 : (!w2.isEmpty && decide (1 < w2.length)) = true := by
    rw [hne2, decide_eq_true (show 1 < w2.length by omega)]
    rfl
  obtain ⟨a1, r1, rfl⟩ : ∃ a r, w1 = a :: r := by
    cases w1 with
    | nil => simp at hl1
    | cons a r => exact ⟨a, r, rfl⟩
  unfold extract_name_from_email
  dsimp only
  rw [hA, hassoc, hB, hany]
  simp only [if_true]
  rw [hC]
  simp only [List.filter_cons, hf1, hf2, if_true, List.filter_nil,
    List.map_cons, List.map_nil]
  show (if (joinSpace [pyCapitalize (a1 :: r1), pyCapitalize w2]).isEmpty
      then pyCapitalize ((a1 :: r1) ++ '.' :: w2) else
      joinSpace [pyCapitalize (a1 :: r1), pyCapitalize w2])
      = pyCapitalize (a1 :: r1) ++ ' ' :: pyCapitalize w2
  rfl

/-- C3 witness: `robert.johnson123@x.com` yields `Robert Johnson`. -/
theorem extract_name_two_words_witness :
    extract_name_from_email ((("robert".toList) ++ '.' ::
        (("johnson".toList) ++ ("123".toList))) ++ '@' :: ("x.com".toList))
      = pyCapitalize ("robert".toList) ++ ' ' :: pyCapitalize ("johnson".toList) :=
  extract_name_two_words ("robert".toList) ("johnson".toList) ("123".toList)
    ("x.com".toList) (by decide) (by decide) (by decide) (by decide) (by decide)

/-- ASCII lower-casing is idempotent. -/
theorem toLower_toLower (c : Char) : c.toLower.toLower = c.toLower := by
  by_cases h : 65 ≤ c.toNat ∧ c.toNat ≤ 90
  · have hstep : c.toLower = Char.ofNat (c.toNat + 32) := by
      unfold Char.toLower
      rw [if_pos h]
    rw [hstep]
    obtain ⟨h1, h2⟩ := h
    generalize hg : c.toNat = n at h1 h2
    interval_cases n <;> decide
  · have hstep : c.toLower = c := by
      unfold Char.toLower
      rw [if_neg h]
    rw [hstep, hstep]

/-- Characters surviving `replaceAllFuel` come from the input. -/
theorem mem_replaceAllFuel (pat : PyStr) :
    ∀ (fuel : Nat) (s : PyStr) (x : Char),
      x ∈ replaceAllFuel pat fuel s → x ∈ s := by
  intro fuel
  induction fuel with
  | zero => intro s x hx; exact hx
  | succ fuel ih =>
    intro s x hx
    cases s with
    | nil => exact hx
    | cons c rest =>
      simp only [replaceAllFuel] at hx
      split at hx
      · exact List.drop_subset _ _ (ih _ _ hx)
      · rcases List.mem_cons.mp hx with rfl | hx2
        · exact List.mem_cons_self _ _
        · exact List.mem_cons_of_mem _ (ih _ _ hx2)

/-- `replaceAllFuel` leaves a string without the pattern unchanged. -/
theorem replaceAllFuel_eq_self (pat : PyStr) :
    ∀ (s : PyStr) (fuel : Nat),
      hasSub pat s = false → replaceAllFuel pat fuel s = s := by
  intro s
  induction s with
  | nil => intro fuel _; cases fuel <;> rfl
  | cons c rest ih =>
    intro fuel h
    cases fuel with
    | zero => rfl
    | succ fuel =>
      simp only [hasSub, Bool.or_eq_false_iff] at h
      have hcond : (!pat.isEmpty && pat.isPrefixOf (c :: rest)) = false := by
        rw [h.1, Bool.and_false]
      simp only [replaceAllFuel, hcond, Bool.false_eq_true, if_false]
      rw [ih fuel h.2]

/-- Every character of a matched substring occurs in the scanned string. -/
theorem mem_of_hasSub (pat s : PyStr) (h : hasSub pat s = true) :
    ∀ x ∈ pat, x ∈ s := by
  induction s with
  | nil =>
    intro x hx
    simp only [hasSub, decide_eq_true_eq] at h
    rw [h] at hx
    exact absurd hx (List.not_mem_nil x)
  | cons c rest ih =>
    simp only [hasSub, Bool.or_eq_true] at h
    intro x hx
    rcases h with h | h
    · exact ((List.isPrefixOf_iff_prefix.mp h).sublist).subset hx
    · exact List.mem_cons_of_mem _ (ih h x hx)

/-- `pyLower` fixes strings of lower-case-fixed characters. -/
theorem pyLower_eq_self (s : PyStr) (h : ∀ c ∈ s, c.toLower = c) :
    pyLower s = s := by
  unfold pyLower
  rw [List.map_congr_left h]
  exact List.map_id _

/-- `takeWhile` keeps a list all of whose elements satisfy the predicate. -/
theorem takeWhile_all (p : Char → Bool) (l : PyStr)
    (h : ∀ x ∈ l, p x = true) : l.takeWhile p = l := by
  induction l with
  | nil => rfl
  | cons c rest ih =>
    simp only [List.takeWhile_cons, h c (List.mem_cons_self _ _), if_true]
    rw [ih fun x hx => h x (List.mem_cons_of_mem _ hx)]

/-- Every character of the `clean_domain` pipeline output is fixed by
lower-casing (it came through `pyLower`). -/
theorem pipeline_chars_lower (d : PyStr) :
    ∀ x ∈ clean_domain_pipeline d, x.toLower = x := by
  intro x hx
  unfold clean_domain_pipeline at hx
  dsimp only at hx
  have hx1 := (List.takeWhile_sublist _).subset hx
  have hx2 := mem_replaceAllFuel _ _ _ _ hx1
  have hx3 := mem_replaceAllFuel _ _ _ _ hx2
  have hx4 := mem_replaceAllFuel _ _ _ _ hx3
  rcases List.mem_map.mp hx4 with ⟨y, _, rfl⟩
  exact toLower_toLower y

/-- C9 counterexample: `clean_domain` is not idempotent.  On
`"https:// a.b"` the substring replacement exposes a leading space, so the
cleaned result `" a.b"` cleans again to `"a.b" ≠ " a.b"`. -/
theorem clean_domain_not_idempotent_cex :
    clean_domain ("https:// a.b".toList) = some (" a.b".toList)
    ∧ clean_domain (" a.b".toList) = some ("a.b".toList)
    ∧ some ("a.b".toList) ≠ some (" a.b".toList) := by
  refine ⟨by decide, by decide, by decide⟩

/-- C9 amended: `clean_domain` returns `None` exactly when the normalized
pipeline output contains no dot; and it is idempotent on every result that
is already whitespace-trimmed and free of the substring `www.` (the
counterexample shows the replacement can expose surrounding whitespace —
and similarly a fresh `www.` — so the unconditional idempotence claim
fails). -/
theorem clean_domain_spec (d c e : PyStr)
    (h1 : clean_domain d = some c)
    (h2 : pyStrip c = c)
    (h3 : hasSub ("www.".toList) c = false) :
    (clean_domain e = none
      ↔ (clean_domain_pipeline e).any (fun x => x = '.') = false)
    ∧ clean_domain c = some c := by
  constructor
  · unfold clean_domain
    dsimp only
    split
    · rename_i h
      simp [h]
    · rename_i h
      simp only [Bool.not_eq_true] at h
      simp [h]
  · have hceq : c = clean_domain_pipeline d
        ∧ (clean_domain_pipeline d).any (fun x => decide (x = '.')) = true := by
      unfold clean_domain at h1
      dsimp only at h1
      split at h1
      · rename_i h
        exact ⟨(Option.some.injEq _ _ ▸ h1 : _ = c).symm, h⟩
      · exact absurd h1 (by simp)
    have hslash : ∀ x ∈ c, x ≠ '/' := by
      intro x hx
      rw [hceq.1] at hx
      unfold clean_domain_pipeline at hx
      dsimp only at hx
      have := List.mem_takeWhile_imp hx
      simpa using this
    have hlower : ∀ x ∈ c, x.toLower = x := by
      intro x hx
      exact pipeline_chars_lower d x (hceq.1 ▸ hx)
    have hsl : '/' ∉ c := fun hm => hslash _ hm rfl
    have hh1 : hasSub ("https://".toList) c = false := by
      rw [Bool.eq_false_iff]
      intro htr
      exact hsl (mem_of_hasSub _ _ htr '/' (by decide))
    have hh2 : hasSub ("http://".toList) c = false := by
      rw [Bool.eq_false_iff]
      intro htr
      exact hsl (mem_of_hasSub _ _ htr '/' (by decide))
    have hdot : c.any (fun x => decide (x = '.')) = true := by
      rw [hceq.1]
      exact hceq.2
    unfold clean_domain clean_domain_pipeline
    dsimp only
    rw [h2, pyLower_eq_self c hlower]
    unfold replaceAll
    rw [replaceAllFuel_eq_self _ _ _ hh1, replaceAllFuel_eq_self _ _ _ hh2,
      replaceAllFuel_eq_self _ _ _ h3]
    rw [takeWhile_all _ _ (fun x hx => by
      simpa using hslash x hx)]
    rw [hdot]
    rfl

/-- C9 witness: `https://www.example.com/about` cleans to `example.com`,
which is a fixed point of `clean_domain`; and `nodot` is rejected because
its pipeline output has no dot. -/
theorem clean_domain_spec_witness :
    (clean_domain ("nodot".toList) = none
      ↔ (clean_domain_pipeline ("nodot".toList)).any (fun x => x = '.') = false)
    ∧ clean_domain ("example.com".toList) = some ("example.com".toList) :=
  clean_domain_spec ("https://www.example.com/about".toList)
    ("example.com".toList) ("nodot".toList)
    (by decide) (by decide) (by decide)

/-- The four predefined templates are non-empty strings. -/
theorem templates_nonempty : ∀ k : Fin 4, get_predefined_templates k ≠ [] := by
  decide

/-- An early return of the retry loop passed the quality check:
longer than 200 characters and containing `Mantavya Mahajan`. -/
theorem try_models_some_quality (models : List GenOutcome) :
    ∀ (fuel idx : Nat) (g : PyStr),
      (try_models models fuel idx).1 = some g →
      200 < g.length ∧ hasSub ("Mantavya Mahajan".toList) g = true := by
  intro fuel
  induction fuel with
  | zero => intro idx g h; exact absurd h (by simp [try_models])
  | succ fuel ih =>
    intro idx g h
    simp only [try_models] at h
    split at h
    · rename_i g0 heq
      split at heq
      · split at heq
        · rename_i hq
          have hg : g0 = g := by
            simpa using h
          rw [Option.some_inj.mp heq] at hq
          rw [hg] at hq
          unfold quality_ok at hq
          simp only [Bool.and_eq_true, decide_eq_true_eq] at hq
          exact ⟨hq.1, hq.2⟩
        · exact absurd heq (by simp)
      · exact absurd heq (by simp)
    · exact ih _ g (by simpa using h)

/-- The model indices attempted by the retry loop starting at `idx < len`:
a window `idx, idx+1 % len, ...` of at most `fuel` rotations. -/
theorem try_models_att_char (models : List GenOutcome)
    (hlen : 0 < models.length) :
    ∀ (fuel idx : Nat), idx < models.length →
      ∃ k ≤ fuel, (try_models models fuel idx).2.2
        = (List.range k).map (fun j => (idx + j) % models.length) := by
  intro fuel
  induction fuel with
  | zero => intro idx _; exact ⟨0, Nat.le_refl 0, rfl⟩
  | succ fuel ih =>
    intro idx hidx
    simp only [try_models]
    split
    · refine ⟨1, by omega, ?_⟩
      show [idx] = [(idx + 0) % models.length]
      rw [Nat.add_zero, Nat.mod_eq_of_lt hidx]
    · have hidx2 : (idx + 1) % models.length < models.length :=
        Nat.mod_lt _ hlen
      obtain ⟨k, hk, hatt⟩ := ih ((idx + 1) % models.length) hidx2
      refine ⟨k + 1, by omega, ?_⟩
      show idx :: (try_models models fuel ((idx + 1) % models.length)).2.2
          = (List.range (k + 1)).map (fun j => (idx + j) % models.length)
      rw [hatt, List.range_succ_eq_map, List.map_cons, List.map_map]
      congr 1
      · rw [Nat.add_zero, Nat.mod_eq_of_lt hidx]
      · apply List.map_congr_left
        intro j _
        show ((idx + 1) % models.length + j) % models.length
            = (idx + Nat.succ j) % models.length
        rw [Nat.mod_add_mod]
        congr 1
        omega

/-- A window of `k ≤ len` successive indices mod `len` has no repeats. -/
theorem range_map_mod_nodup (len idx k : Nat) (hk : k ≤ len) :
    ((List.range k).map (fun j => (idx + j) % len)).Nodup := by
  apply List.Nodup.map_on _ (List.nodup_range _)
  intro x hx y hy hxy
  rw [List.mem_range] at hx hy
  have hme : x ≡ y [MOD len] :=
    Nat.ModEq.add_left_cancel' idx (hxy : (idx + x) % len = (idx + y) % len)
  have : x % len = y % len := hme
  rwa [Nat.mod_eq_of_lt (by omega), Nat.mod_eq_of_lt (by omega)] at this

/-- The degenerate branches of `generate_personalized_paragraph` all fall
back to a predefined template: empty resume, empty job description, or no
configured model. -/
theorem gen_template_cases (models : List GenOutcome) (idx : Nat)
    (tchoice : Fin 4) (resume_content job_description : PyStr) :
    (generate_personalized_paragraph models idx tchoice [] job_description).1
        = get_predefined_templates tchoice
    ∧ (generate_personalized_paragraph models idx tchoice resume_content []).1
        = get_predefined_templates tchoice
    ∧ (generate_personalized_paragraph [] idx tchoice resume_content
        job_description).1 = get_predefined_templates tchoice := by
  refine ⟨?_, ?_, ?_⟩
  · unfold generate_personalized_paragraph
    split
    · rfl
    · rw [if_pos (by simp)]
  · unfold generate_personalized_paragraph
    split
    · rfl
    · rw [if_pos (by simp)]
  · unfold generate_personalized_paragraph
    rw [if_pos (by simp)]

/-- In the main branch (models configured, both inputs non-empty) the
generator returns the loop's result, defaulting to a template. -/
theorem gen_main_eq (models : List GenOutcome) (idx : Nat) (tchoice : Fin 4)
    (resume_content job_description : PyStr)
    (hm : ¬models.isEmpty = true)
    (hre : ¬(resume_content.isEmpty || job_description.isEmpty) = true)
    (res : Option PyStr) (fin : Nat) (att : List Nat)
    (htm : try_models models models.length idx = (res, fin, att)) :
    generate_personalized_paragraph models idx tchoice resume_content
        job_description
      = (res.getD (get_predefined_templates tchoice), fin, att) := by
  unfold generate_personalized_paragraph
  rw [if_neg hm, if_neg hre, htm]
  cases res <;> rfl

/-- C4: `AIService.generate_personalized_paragraph` always returns a
non-empty string; the model indices it attempts are pairwise distinct and
at most `len(self.models)` many (one `generate_content` call per key,
rotating `current_key_index` mod the model count); with no configured
model, an empty resume or an empty job description it returns a predefined
template; and whatever it returns is either a predefined template or the
loop's AI text, which passed the quality check (longer than 200 characters
and containing `Mantavya Mahajan`). -/
theorem generate_paragraph_spec (models : List GenOutcome) (idx : Nat)
    (tchoice : Fin 4) (resume_content job_description : PyStr)
    (hidx : models = [] ∨ idx < models.length) :
    (generate_personalized_paragraph models idx tchoice resume_content
        job_description).1 ≠ []
    ∧ (generate_personalized_paragraph models idx tchoice resume_content
        job_description).2.2.Nodup
    ∧ (generate_personalized_paragraph models idx tchoice resume_content
        job_description).2.2.length ≤ models.length
    ∧ (generate_personalized_paragraph models idx tchoice []
        job_description).1 = get_predefined_templates tchoice
    ∧ (generate_personalized_paragraph models idx tchoice resume_content
        []).1 = get_predefined_templates tchoice
    ∧ (generate_personalized_paragraph [] idx tchoice resume_content
        job_description).1 = get_predefined_templates tchoice
    ∧ ((generate_personalized_paragraph models idx tchoice resume_content
          job_description).1 = get_predefined_templates tchoice
        ∨ (200 < (generate_personalized_paragraph models idx tchoice
              resume_content job_description).1.length
            ∧ hasSub ("Mantavya Mahajan".toList)
                (generate_personalized_paragraph models idx tchoice
                  resume_content job_description).1 = true
            ∧ (try_models models models.length idx).1
                = some (generate_personalized_paragraph models idx tchoice
                    resume_content job_description).1)) := by
  obtain ⟨ht1, ht2, ht3⟩ :=
    gen_template_cases models idx tchoice resume_content job_description
  by_cases hm : models.isEmpty = true
  · have hred : generate_personalized_paragraph models idx tchoice
        resume_content job_description
        = (get_predefined_templates tchoice, idx, []) := by
      unfold generate_personalized_paragraph
      rw [if_pos hm]
    rw [hred]
    exact ⟨templates_nonempty tchoice, List.nodup_nil, by simp, ht1, ht2, ht3,
      Or.inl rfl⟩
  · by_cases hre : (resume_content.isEmpty || job_description.isEmpty) = true
    · have hred : generate_personalized_paragraph models idx tchoice
          resume_content job_description
          = (get_predefined_templates tchoice, idx, []) := by
        unfold generate_personalized_paragraph
        rw [if_neg hm, if_pos hre]
      rw [hred]
      exact ⟨templates_nonempty tchoice, List.nodup_nil, by simp, ht1, ht2,
        ht3, Or.inl rfl⟩
    · have hlen : 0 < models.length := by
        cases models with
        | nil => exact absurd rfl hm
        | cons _ _ => simp
      have hidxlt : idx < models.length := by
        rcases hidx with h | h
        · rw [h] at hlen
          simp at hlen
        · exact h
      obtain ⟨k, hk, hatt⟩ :=
        try_models_att_char models hlen models.length idx hidxlt
      rcases htm : try_models models models.length idx with ⟨res, fin, att⟩
      rw [htm] at hatt
      have hgen := gen_main_eq models idx tchoice resume_content
        job_description hm hre res fin att htm
      have hnodup : att.Nodup := by
        rw [show att = (try_models models models.length idx).2.2 from by
          rw [htm]]
        rw [htm]
        rw [hatt]
        exact range_map_mod_nodup models.length idx k hk
      have hattlen : att.length ≤ models.length := by
        have : att = (List.range k).map
            (fun j => (idx + j) % models.length) := hatt
        rw [this, List.length_map, List.length_range]
        exact hk
      cases res with
      | none =>
        rw [hgen]
        exact ⟨templates_nonempty tchoice, hnodup, hattlen, ht1, ht2, ht3,
          Or.inl rfl⟩
      | some g =>
        have hq := try_models_some_quality models models.length idx g
          (by rw [htm])
        rw [hgen]
        refine ⟨?_, hnodup, hattlen, ht1, ht2, ht3, Or.inr ⟨hq.1, hq.2, ?_⟩⟩
        · intro h
          rw [show (((some g).getD (get_predefined_templates tchoice)), fin,
              att).1 = g from rfl] at h
          rw [h] at hq
          simp at hq
        · rfl

/-- C4 witness: with one configured model whose call raises, the generator
returns a predefined template, attempting key 0 exactly once. -/
theorem generate_paragraph_spec_witness :
    (generate_personalized_paragraph [GenOutcome.raises] 0 0 ("r".toList)
        ("j".toList)).1 ≠ []
    ∧ (generate_personalized_paragraph [GenOutcome.raises] 0 0 ("r".toList)
        ("j".toList)).2.2.Nodup
    ∧ (generate_personalized_paragraph [GenOutcome.raises] 0 0 ("r".toList)
        ("j".toList)).2.2.length ≤ [GenOutcome.raises].length
    ∧ (generate_personalized_paragraph [GenOutcome.raises] 0 0 []
        ("j".toList)).1 = get_predefined_templates 0
    ∧ (generate_personalized_paragraph [GenOutcome.raises] 0 0 ("r".toList)
        []).1 = get_predefined_templates 0
    ∧ (generate_personalized_paragraph [] 0 0 ("r".toList)
        ("j".toList)).1 = get_predefined_templates 0
    ∧ ((generate_personalized_paragraph [GenOutcome.raises] 0 0 ("r".toList)
          ("j".toList)).1 = get_predefined_templates 0
        ∨ (200 < (generate_personalized_paragraph [GenOutcome.raises] 0 0
              ("r".toList) ("j".toList)).1.length
            ∧ hasSub ("Mantavya Mahajan".toList)
                (generate_personalized_paragraph [GenOutcome.raises] 0 0
                  ("r".toList) ("j".toList)).1 = true
            ∧ (try_models [GenOutcome.raises] [GenOutcome.raises].length 0).1
                = some (generate_personalized_paragraph [GenOutcome.raises] 0 0
                    ("r".toList) ("j".toList)).1)) :=
  generate_paragraph_spec [GenOutcome.raises] 0 0 ("r".toList) ("j".toList)
    (Or.inr (by decide))
